import Mathlib

/-!
Verification development for the polling file watcher (`fwatch.py`):
snapshot model, directory scanner, change classifier, pattern filter,
debounced dispatcher, command executor, watch loop, and configuration
persistence, shallowly embedded from the source.

Modelling conventions:
* Paths, patterns and command strings are `List Char` (Python `str`).
* `time.time()` values and `st_mtime` are modelled as `ℚ` (the source only
  subtracts, scales and compares them, so exact rationals are faithful).
* The filesystem seen by one call is a pure oracle `Stat`:
  `os.stat` either yields `(st_mtime, st_size)` or raises (`none`).
* Subprocess execution is external: its observable outcome is an
  `ExecOutcome` supplied as an oracle, and the executor records which
  command string was launched.
-/

/-- Result of `os.stat path`: `some (st_mtime, st_size)` on success,
`none` when the call raises (`OSError` / `FileNotFoundError`). -/
abbrev Stat := List Char → Option (ℚ × ℕ)

/-- `WatcherConfig` from the source: the configuration record. -/
structure WatcherConfig where
  watch_dirs : List (List Char)
  watch_patterns : List (List Char)
  exclude_patterns : List (List Char)
  command : List Char
  on_create : List Char
  on_modify : List Char
  on_delete : List Char
  on_move : List Char
  debounce_ms : ℤ
  poll_interval : ℚ
  recurse : Bool
  oneshot : Bool
  initial_run : Bool
  show_events : Bool
  log_file : Option (List Char)
deriving DecidableEq

/-- `WatcherConfig.__init__`: the field defaults. -/
def WatcherConfig.defaults : WatcherConfig :=
  ⟨[], [], [], [], [], [], [], [], 300, 1, true, false, false, false, none⟩

/-- `FileInfo`: one file's recorded metadata.  The Python attribute
`exists` is spelled `exists_` (`exists` is reserved in Lean). -/
structure FileInfo where
  path : List Char
  mtime : ℚ
  size : ℕ
  exists_ : Bool
deriving DecidableEq

/-- `FileInfo.update`: re-stat the path; on failure only `exists` is
cleared (mtime/size keep their previous values, as in the source). -/
def FileInfo.update (fs : Stat) (fi : FileInfo) : FileInfo :=
  match fs fi.path with
  | some (m, s) => { fi with mtime := m, size := s, exists_ := true }
  | none => { fi with exists_ := false }

/-- `FileInfo.__init__ path`: fields start at `0/0/False`, then `update`. -/
def FileInfo.make (fs : Stat) (path : List Char) : FileInfo :=
  FileInfo.update fs ⟨path, 0, 0, false⟩

/-- `FileInfo.changed`: any of the three recorded fields differs. -/
def FileInfo.changed (self other : FileInfo) : Bool :=
  decide (self.exists_ ≠ other.exists_) ||
  decide (self.mtime ≠ other.mtime) ||
  decide (self.size ≠ other.size)

/-- Python `pattern in path`: substring test on strings. -/
def substrOf (pat : List Char) : List Char → Bool
  | [] => pat.isEmpty
  | c :: t => pat.isPrefixOf (c :: t) || substrOf pat t

/-- `pathlib.Path(path).name` for slash-separated paths with no trailing
slash (the only shape the watcher feeds it): the segment after the last
`/`. -/
def path_basename (p : List Char) : List Char :=
  p.foldl (fun acc c => if c = '/' then [] else acc ++ [c]) []

/-- `pathlib.Path(path).suffix`: with `i` the last index of `.` in the
name, the slice `name[i:]` when `0 < i < len - 1`, else the empty
string. -/
def path_suffix (p : List Char) : List Char :=
  let name := path_basename p
  match name.reverse.findIdx? (fun c => c = '.') with
  | none => []
  | some j =>
    let i := name.length - 1 - j
    if 0 < i ∧ i < name.length - 1 then name.drop i else []

/-- `ChangeHandler.should_process`: include patterns (dot-pattern suffix
match or substring), then exclude patterns (substring, overriding). -/
def should_process (cfg : WatcherConfig) (path : List Char) : Bool :=
  let includeOk :=
    if cfg.watch_patterns.isEmpty then true
    else cfg.watch_patterns.any (fun pat =>
      (decide (pat.head? = some '.') && decide (path_suffix path = pat)) ||
      substrOf pat path)
  if !includeOk then false
  else if !cfg.exclude_patterns.isEmpty &&
      cfg.exclude_patterns.any (fun pat => substrOf pat path) then false
  else true

/-- The mutable part of `ChangeHandler` that the dispatcher touches:
`last_change` (seconds) and `stop_flag`. -/
structure HandlerState where
  last_change : ℚ
  stop_flag : Bool
deriving DecidableEq

/-- `ChangeHandler.__init__`: `last_change = 0`, `stop_flag = False`. -/
def HandlerState.start : HandlerState := ⟨0, false⟩

/-- Observable outcome of one `subprocess.run` attempt. -/
inductive ExecOutcome
  | exited (code : ℤ)
  | timedOut
  | launchError
deriving DecidableEq

/-- One recorded command launch. -/
structure Exec where
  command : List Char
  outcome : ExecOutcome
deriving DecidableEq

/-- `ChangeHandler._should_run`: fire iff
`(now - last_change) * 1000 ≥ debounce_ms`, recording `now` on fire. -/
def should_run (cfg : WatcherConfig) (now : ℚ) (st : HandlerState) :
    Bool × HandlerState :=
  if (cfg.debounce_ms : ℚ) ≤ (now - st.last_change) * 1000 then
    (true, { st with last_change := now })
  else (false, st)

/-- `ChangeHandler._run_command`: skip empty commands, debounce, run the
command (any outcome), then set the stop flag when `oneshot` is on. -/
def run_command (cfg : WatcherConfig) (command : List Char) (now : ℚ)
    (outcome : ExecOutcome) (st : HandlerState) : List Exec × HandlerState :=
  if command.isEmpty then ([], st)
  else
    let r := should_run cfg now st
    if r.1 then
      let st2 :=
        { r.2 with stop_flag := if cfg.oneshot then true else r.2.stop_flag }
      ([⟨command, outcome⟩], st2)
    else ([], r.2)

/-- The three event classifications `handle_change` can assign (the
source's strings `'create'`/`'modify'`/`'delete'`). -/
inductive EventType
  | create
  | modify
  | delete
deriving DecidableEq

/-- One classified change, as typed inside `handle_change`. -/
structure Event where
  path : List Char
  event_type : EventType
  old_info : FileInfo
  new_info : FileInfo
deriving DecidableEq

/-- The event-type branch of `handle_change`. -/
def event_type_of (old_info new_info : FileInfo) : EventType :=
  if old_info.exists_ && !new_info.exists_ then .delete
  else if !old_info.exists_ && new_info.exists_ then .create
  else .modify

/-- The per-type command chosen by `handle_change` before the generic
fallback. -/
def resolve_command (cfg : WatcherConfig) : EventType → List Char
  | .delete => cfg.on_delete
  | .create => cfg.on_create
  | .modify => cfg.on_modify

/-- `ChangeHandler.handle_change`: filter, classify, pick the per-type
command else the generic one, and dispatch through `run_command`.
Returns the classified events, the launches, and the new state. -/
def handle_change (cfg : WatcherConfig) (path : List Char)
    (old_info new_info : FileInfo) (now : ℚ) (outcome : ExecOutcome)
    (st : HandlerState) : List Event × List Exec × HandlerState :=
  if !should_process cfg path then ([], [], st)
  else
    let t := event_type_of old_info new_info
    let command := resolve_command cfg t
    let ev : Event := ⟨path, t, old_info, new_info⟩
    if !command.isEmpty then
      let r := run_command cfg command now outcome st
      ([ev], r.1, r.2)
    else if !cfg.command.isEmpty then
      let r := run_command cfg cfg.command now outcome st
      ([ev], r.1, r.2)
    else ([ev], [], st)

/-- A Python dict `path -> FileInfo` as an association list with unique
keys maintained by `dictInsert`. -/
abbrev SnapSet := List (List Char × FileInfo)

/-- Lookup in a snapshot set (first matching key). -/
def lookupPath : SnapSet → List Char → Option FileInfo
  | [], _ => none
  | (q, fi) :: t, p => if q = p then some fi else lookupPath t p

/-- Python dict assignment `m[p] = fi`: replace the first entry for `p`,
or append a new one. -/
def dictInsert : SnapSet → List Char → FileInfo → SnapSet
  | [], p, fi => [(p, fi)]
  | (q, g) :: t, p, fi =>
    if q = p then (q, fi) :: t else (q, g) :: dictInsert t p fi

/-- Python `m.update(m2)`: assign every entry of `m2` into `m`. -/
def dictUpdate (m m2 : SnapSet) : SnapSet :=
  m2.foldl (fun acc x => dictInsert acc x.1 x.2) m

/-- The file paths that `os.walk` hands `_scan_directory`, one inner list
per walk level (paths already joined with their root); without `recurse`
the source breaks after the first level. -/
def scan_files (cfg : WatcherConfig)
    (walkLevels : List (List (List Char))) : List (List Char) :=
  (if cfg.recurse then walkLevels else walkLevels.take 1).flatten

/-- `FileWatcher._scan_directory`: one dict entry per walked file.  The
source's `try/except` around the `FileInfo` constructor never fires,
because `FileInfo.update` already swallows stat errors. -/
def scan_directory (cfg : WatcherConfig) (fs : Stat)
    (walkLevels : List (List (List Char))) : SnapSet :=
  (scan_files cfg walkLevels).foldl
    (fun m p => dictInsert m p (FileInfo.make fs p)) []

/-- The key union iterated by the main loop
(`set(old) | set(new)`, here in a definite order: previous keys first,
then the fresh current keys). -/
def all_paths (prev cur : SnapSet) : List (List Char) :=
  prev.map (fun x => x.1) ++
    (cur.map (fun x => x.1)).filter (fun p => decide (lookupPath prev p = none))

/-- The body of the comparison loop in `FileWatcher.start` for one path:
modified / deleted / created branches.  `fs` is the filesystem at handle
time, consulted by the `FileInfo(path)` constructors the source places in
the deleted and created branches. -/
def cycle_step (cfg : WatcherConfig) (fs : Stat) (prev cur : SnapSet)
    (now : ℚ) (outcome : ExecOutcome) (st : HandlerState)
    (p : List Char) : List Event × List Exec × HandlerState :=
  match lookupPath prev p, lookupPath cur p with
  | some o, some n =>
    if o.changed n then handle_change cfg p o n now outcome st
    else ([], [], st)
  | some o, none =>
    let d := { FileInfo.make fs p with exists_ := false }
    handle_change cfg p o d now outcome st
  | none, some n =>
    handle_change cfg p (FileInfo.make fs p) n now outcome st
  | none, none => ([], [], st)

/-- Run `cycle_step` over a list of paths, threading the handler state and
concatenating events and launches. -/
def cycle_go (cfg : WatcherConfig) (fs : Stat) (prev cur : SnapSet)
    (now : ℚ) (outcome : ExecOutcome) :
    List (List Char) → HandlerState → List Event × List Exec × HandlerState
  | [], st => ([], [], st)
  | p :: ps, st =>
    let r := cycle_step cfg fs prev cur now outcome st p
    let rest := cycle_go cfg fs prev cur now outcome ps r.2.2
    (r.1 ++ rest.1, r.2.1 ++ rest.2.1, rest.2.2)

/-- One comparison pass of `FileWatcher.start` over the key union of the
previous and current snapshot sets. -/
def classify_cycle (cfg : WatcherConfig) (fs : Stat) (prev cur : SnapSet)
    (now : ℚ) (outcome : ExecOutcome) (st : HandlerState) :
    List Event × List Exec × HandlerState :=
  cycle_go cfg fs prev cur now outcome (all_paths prev cur) st

/-- The filesystem interface consumed by `FileWatcher.start` for one scan
cycle: a stat oracle, the `os.walk` listing per root, the wall clock, and
the outcome oracle for whatever command this cycle may launch. -/
structure CycleEnv where
  stat : Stat
  walk : List Char → List (List (List Char))
  now : ℚ
  outcome : ExecOutcome

/-- Result of running the watcher over a finite observation window:
either the source's `start` returned (with its exit code, the number of
directory scans performed, and the classified events), or the window
ended with the loop still running. -/
inductive LoopResult
  | finished (code : ℤ) (scans : ℕ) (events : List Event)
  | outOfTrace (scans : ℕ) (events : List Event)
deriving DecidableEq

/-- The `while not stop_flag` loop of `FileWatcher.start`: each iteration
scans every watch root, classifies against the previous snapshot set, and
replaces it; the loop exits (and `start` returns 0) once the stop flag is
observed. -/
def watch_loop (cfg : WatcherConfig) (watchPaths : List (List Char))
    (trace : List CycleEnv) (st : HandlerState) (prev : SnapSet)
    (scans : ℕ) (evs : List Event) : LoopResult :=
  if st.stop_flag then .finished 0 scans evs
  else
    match trace with
    | [] => .outOfTrace scans evs
    | env :: rest =>
      let cur := watchPaths.foldl
        (fun m p => dictUpdate m (scan_directory cfg env.stat (env.walk p))) []
      let r := classify_cycle cfg env.stat prev cur env.now env.outcome st
      watch_loop cfg watchPaths rest r.2.2 cur
        (scans + watchPaths.length) (evs ++ r.1)

/-- The process-level environment `FileWatcher.start` consults before the
loop: working directory, `os.path.abspath`, `os.path.exists`, and the
filesystem for the baseline scan. -/
structure StartEnv where
  cwd : List Char
  abspath : List Char → List Char
  dirExists : List Char → Bool
  stat0 : Stat
  walk0 : List Char → List (List (List Char))

/-- Root resolution in `FileWatcher.start`: default to the working
directory when none are configured, absolutize, and keep only the roots
that exist (missing ones are only warned about). -/
def resolve_watch_paths (cfg : WatcherConfig) (env : StartEnv) :
    List (List Char) :=
  let dirs := if cfg.watch_dirs.isEmpty then [env.cwd] else cfg.watch_dirs
  dirs.foldl (fun acc d =>
    let a := env.abspath d
    if env.dirExists a then acc ++ [a] else acc) []

/-- `FileWatcher.start`: resolve roots (exit code 1 and zero scans when
none survive), seed the baseline snapshot set without producing events,
then run the watch loop.  The optional `initial_run` launch happens
outside the dispatcher and does not affect events, scans or the exit
code. -/
def start (cfg : WatcherConfig) (env : StartEnv) (trace : List CycleEnv) :
    LoopResult :=
  let watchPaths := resolve_watch_paths cfg env
  if watchPaths.isEmpty then .finished 1 0 []
  else
    let initStates := watchPaths.foldl
      (fun m p => dictUpdate m (scan_directory cfg env.stat0 (env.walk0 p))) []
    watch_loop cfg watchPaths trace HandlerState.start initStates
      watchPaths.length []

/-- JSON values as Python's `json` module produces and consumes them for
this configuration file (ints and floats are distinct, as in Python). -/
inductive JVal
  | jstr (s : List Char)
  | jint (n : ℤ)
  | jnum (q : ℚ)
  | jbool (b : Bool)
  | jnull
  | jarr (l : List JVal)

/-- Python `data.get(key, default)` on the parsed JSON object. -/
def jget : List (String × JVal) → String → JVal → JVal
  | [], _, d => d
  | (k, v) :: t, key, d => if k = key then v else jget t key d

/-- `WatcherConfig.to_dict`, composed with `json.dump`'s value encoding
(`save_config` writes exactly this object to the file). -/
def WatcherConfig.to_dict (c : WatcherConfig) : List (String × JVal) :=
  [("watch_dirs", .jarr (c.watch_dirs.map .jstr)),
   ("watch_patterns", .jarr (c.watch_patterns.map .jstr)),
   ("exclude_patterns", .jarr (c.exclude_patterns.map .jstr)),
   ("command", .jstr c.command),
   ("on_create", .jstr c.on_create),
   ("on_modify", .jstr c.on_modify),
   ("on_delete", .jstr c.on_delete),
   ("on_move", .jstr c.on_move),
   ("debounce_ms", .jint c.debounce_ms),
   ("poll_interval", .jnum c.poll_interval),
   ("recurse", .jbool c.recurse),
   ("oneshot", .jbool c.oneshot),
   ("initial_run", .jbool c.initial_run),
   ("show_events", .jbool c.show_events),
   ("log_file", match c.log_file with | none => .jnull | some s => .jstr s)]

/-- Decode a JSON array of strings. -/
def decodeStrs : List JVal → Option (List (List Char))
  | [] => some []
  | .jstr s :: t =>
    match decodeStrs t with
    | some r => some (s :: r)
    | none => none
  | _ :: _ => none

/-- Decode a string list field. -/
def asStrList : JVal → Option (List (List Char))
  | .jarr l => decodeStrs l
  | _ => none

/-- Decode a string field. -/
def asStr : JVal → Option (List Char)
  | .jstr s => some s
  | _ => none

/-- Decode an integer field. -/
def asInt : JVal → Option ℤ
  | .jint n => some n
  | _ => none

/-- Decode a numeric field. -/
def asNum : JVal → Option ℚ
  | .jnum q => some q
  | _ => none

/-- Decode a boolean field. -/
def asBool : JVal → Option Bool
  | .jbool b => some b
  | _ => none

/-- Decode an optional string field (`null` ↦ `None`). -/
def asOptStr : JVal → Option (Option (List Char))
  | .jnull => some none
  | .jstr s => some (some s)
  | _ => none

/-- `FileWatcher.load_config` after `json.load`: read each key with its
documented default.  The Python code assigns the raw values without type
checks; this model restricts to well-typed JSON, which is exact on
everything `save_config` writes. -/
def load_config (data : List (String × JVal)) : Option WatcherConfig := do
  let watch_dirs ← asStrList (jget data "watch_dirs" (.jarr []))
  let watch_patterns ← asStrList (jget data "watch_patterns" (.jarr []))
  let exclude_patterns ← asStrList (jget data "exclude_patterns" (.jarr []))
  let command ← asStr (jget data "command" (.jstr []))
  let on_create ← asStr (jget data "on_create" (.jstr []))
  let on_modify ← asStr (jget data "on_modify" (.jstr []))
  let on_delete ← asStr (jget data "on_delete" (.jstr []))
  let on_move ← asStr (jget data "on_move" (.jstr []))
  let debounce_ms ← asInt (jget data "debounce_ms" (.jint 300))
  let poll_interval ← asNum (jget data "poll_interval" (.jnum 1))
  let recurse ← asBool (jget data "recurse" (.jbool true))
  let oneshot ← asBool (jget data "oneshot" (.jbool false))
  let initial_run ← asBool (jget data "initial_run" (.jbool false))
  let show_events ← asBool (jget data "show_events" (.jbool false))
  let log_file ← asOptStr (jget data "log_file" .jnull)
  return ⟨watch_dirs, watch_patterns, exclude_patterns, command, on_create,
    on_modify, on_delete, on_move, debounce_ms, poll_interval, recurse,
    oneshot, initial_run, show_events, log_file⟩

/-! ### Derived definitions used by the statements -/

/-- The events `handle_change` classifies, independent of the handler
state it threads. -/
def hc_events (cfg : WatcherConfig) (path : List Char)
    (old_info new_info : FileInfo) : List Event :=
  if !should_process cfg path then []
  else [⟨path, event_type_of old_info new_info, old_info, new_info⟩]

/-- The events one path contributes to a classification cycle. -/
def step_events (cfg : WatcherConfig) (fs : Stat) (prev cur : SnapSet)
    (p : List Char) : List Event :=
  match lookupPath prev p, lookupPath cur p with
  | some o, some n => if o.changed n then hc_events cfg p o n else []
  | some o, none => hc_events cfg p o { FileInfo.make fs p with exists_ := false }
  | none, some n => hc_events cfg p (FileInfo.make fs p) n
  | none, none => []

/-- The sub-list of events concerning one path. -/
def events_for (evs : List Event) (p : List Char) : List Event :=
  evs.filter (fun e => decide (e.path = p))

/-! ### Concrete instances used in counterexamples and witnesses -/

/-- A filesystem where every `os.stat` call fails. -/
def fsFail : Stat := fun _ => none

/-- Creation scenario: per-event commands configured, no patterns. -/
def cfg1 : WatcherConfig :=
  { WatcherConfig.defaults with on_create := ['C'], on_modify := ['M'] }

/-- Creation scenario: the file `a` exists with mtime 100 and size 10. -/
def fs1 : Stat := fun p => if p = ['a'] then some (100, 10) else none

/-- Creation scenario: the current scan found `a`. -/
def cur1 : SnapSet := [(['a'], FileInfo.make fs1 ['a'])]

/-- A previous snapshot set whose only entry is the observed-absent
sentinel for `a`. -/
def prev8 : SnapSet := [(['a'], ⟨['a'], 0, 0, false⟩)]

/-- Move scenario: all four per-event commands configured. -/
def cfg9 : WatcherConfig :=
  { WatcherConfig.defaults with
      on_create := ['C'], on_modify := ['M'],
      on_delete := ['D'], on_move := ['V'] }

/-- Move scenario: after the move only `b` exists. -/
def fs9 : Stat := fun p => if p = ['b'] then some (100, 10) else none

/-- Move scenario: before the move the watcher had recorded `a`. -/
def prev9 : SnapSet := [(['a'], ⟨['a'], 50, 10, true⟩)]

/-- Move scenario: the current scan found `b`. -/
def cur9 : SnapSet := [(['b'], ⟨['b'], 100, 10, true⟩)]

/-- A configuration with one configured watch root `x`. -/
def cfgW : WatcherConfig :=
  { WatcherConfig.defaults with watch_dirs := [['x']] }

/-- An environment where no directory exists. -/
def envW : StartEnv := ⟨['c'], id, fun _ => false, fsFail, fun _ => []⟩

/-- An environment where every directory exists and is empty. -/
def envV : StartEnv := ⟨['c'], id, fun _ => true, fsFail, fun _ => []⟩

/-- A oneshot configuration with a generic command. -/
def cfgOS : WatcherConfig :=
  { WatcherConfig.defaults with oneshot := true, command := ['c'] }

/-- A handler state whose stop flag is already set. -/
def stGo : HandlerState := ⟨0, true⟩

/-- A cycle environment for a pending poll iteration. -/
def envT : CycleEnv := ⟨fsFail, fun _ => [[['f']]], 2000, .exited 0⟩

/-- Include `.py`, exclude substring `b`. -/
def cfgX : WatcherConfig :=
  { WatcherConfig.defaults with
      watch_patterns := [['.', 'p', 'y']],
      exclude_patterns := [['b']] }

/-- Scenario B baseline: `a` recorded with mtime 100, size 10. -/
def prevB : SnapSet := [(['a'], ⟨['a'], 100, 10, true⟩)]

/-- Scenario B current scan: `a` now has mtime 150, size 10. -/
def curB : SnapSet := [(['a'], ⟨['a'], 150, 10, true⟩)]

/-- Deletion scenario baseline: `a` recorded as existing. -/
def prevDel : SnapSet := [(['a'], ⟨['a'], 100, 10, true⟩)]

/-! ### Helper lemmas -/

theorem handle_change_fst (cfg : WatcherConfig) (path : List Char)
    (old_info new_info : FileInfo) (now : ℚ) (outcome : ExecOutcome)
    (st : HandlerState) :
    (handle_change cfg path old_info new_info now outcome st).1 =
      hc_events cfg path old_info new_info := by
  unfold handle_change hc_events
  dsimp only
  split
  · rfl
  · split
    · rfl
    · split <;> rfl

theorem cycle_step_fst (cfg : WatcherConfig) (fs : Stat) (prev cur : SnapSet)
    (now : ℚ) (outcome : ExecOutcome) (st : HandlerState) (p : List Char) :
    (cycle_step cfg fs prev cur now outcome st p).1 =
      step_events cfg fs prev cur p := by
  unfold cycle_step step_events
  cases lookupPath prev p <;> cases lookupPath cur p <;>
    simp only [handle_change_fst]
  split <;> simp [handle_change_fst]

theorem cycle_go_fst (cfg : WatcherConfig) (fs : Stat) (prev cur : SnapSet)
    (now : ℚ) (outcome : ExecOutcome) (ps : List (List Char))
    (st : HandlerState) :
    (cycle_go cfg fs prev cur now outcome ps st).1 =
      (ps.map (step_events cfg fs prev cur)).flatten := by
  induction ps generalizing st with
  | nil => rfl
  | cons p t ih => simp [cycle_go, cycle_step_fst, ih]

theorem step_events_path (cfg : WatcherConfig) (fs : Stat)
    (prev cur : SnapSet) (q : List Char) (e : Event)
    (he : e ∈ step_events cfg fs prev cur q) : e.path = q := by
  unfold step_events at he
  have hh : ∀ o n, e ∈ hc_events cfg q o n → e.path = q := by
    intro o n hmem
    unfold hc_events at hmem
    split at hmem
    · simp at hmem
    · simp at hmem
      subst hmem
      rfl
  split at he
  · split at he
    · exact hh _ _ he
    · simp at he
  · exact hh _ _ he
  · exact hh _ _ he
  · simp at he

theorem events_for_append (l1 l2 : List Event) (p : List Char) :
    events_for (l1 ++ l2) p = events_for l1 p ++ events_for l2 p := by
  simp [events_for]

theorem events_for_self (l : List Event) (p : List Char)
    (h : ∀ e ∈ l, e.path = p) : events_for l p = l := by
  unfold events_for
  induction l with
  | nil => rfl
  | cons e t ih =>
    have hp := h e (by simp)
    simp [hp, ih (fun x hx => h x (by simp [hx]))]

theorem events_for_none (l : List Event) (p : List Char)
    (h : ∀ e ∈ l, e.path ≠ p) : events_for l p = [] := by
  unfold events_for
  induction l with
  | nil => rfl
  | cons e t ih =>
    have hp := h e (by simp)
    simp [hp, ih (fun x hx => h x (by simp [hx]))]

theorem events_for_flatten (f : List Char → List Event)
    (l : List (List Char)) (p : List Char) (hnd : l.Nodup) (hp : p ∈ l)
    (hf : ∀ q, ∀ e ∈ f q, e.path = q) :
    events_for (l.map f).flatten p = f p := by
  induction l with
  | nil => simp at hp
  | cons q t ih =>
    have hnd' := List.nodup_cons.mp hnd
    by_cases hq : q = p
    · subst hq
      have ht : ∀ e ∈ (t.map f).flatten, e.path ≠ q := by
        intro e he
        simp only [List.mem_flatten, List.mem_map] at he
        obtain ⟨l', ⟨r, hr, hl'⟩, hel⟩ := he
        subst hl'
        have hpr := hf r e hel
        intro hc
        have hrq : r = q := hpr.symm.trans hc
        exact hnd'.1 (hrq ▸ hr)
      simp [events_for_append, events_for_self (f q) q (hf q),
        events_for_none _ _ ht]
    · have hpt : p ∈ t := by
        rcases List.mem_cons.mp hp with h | h
        · exact absurd h.symm hq
        · exact h
      have hq' : ∀ e ∈ f q, e.path ≠ p := by
        intro e he hc
        exact hq (by rw [← hc]; exact (hf q e he).symm)
      simp [events_for_append, events_for_none _ _ hq', ih hnd'.2 hpt]

theorem events_for_cycle (cfg : WatcherConfig) (fs : Stat)
    (prev cur : SnapSet) (now : ℚ) (outcome : ExecOutcome)
    (st : HandlerState) (p : List Char)
    (hnd : (all_paths prev cur).Nodup) (hp : p ∈ all_paths prev cur) :
    events_for (classify_cycle cfg fs prev cur now outcome st).1 p =
      step_events cfg fs prev cur p := by
  unfold classify_cycle
  rw [cycle_go_fst]
  exact events_for_flatten _ _ _ hnd hp
    (fun q e he => step_events_path cfg fs prev cur q e he)

theorem lookupPath_mem (m : SnapSet) (p : List Char) (v : FileInfo)
    (h : lookupPath m p = some v) : p ∈ m.map (fun x => x.1) := by
  induction m with
  | nil => simp [lookupPath] at h
  | cons x t ih =>
    unfold lookupPath at h
    split at h
    · rename_i hx
      simp only [List.map_cons, List.mem_cons]
      exact Or.inl hx.symm
    · simp only [List.map_cons, List.mem_cons]
      exact Or.inr (ih h)

theorem lookup_dictInsert (m : SnapSet) (q p : List Char) (v : FileInfo) :
    lookupPath (dictInsert m q v) p =
      if q = p then some v else lookupPath m p := by
  induction m with
  | nil =>
    unfold dictInsert lookupPath
    by_cases h : q = p <;> simp [h, lookupPath]
  | cons x t ih =>
    unfold dictInsert
    by_cases hx : x.1 = q
    · simp only [hx, if_pos rfl, lookupPath]
      by_cases hqp : q = p <;> simp [lookupPath, hqp, hx]
    · simp only [if_neg hx, lookupPath]
      by_cases hxp : x.1 = p
      · have : ¬ q = p := fun hc => hx (by rw [hc, hxp])
        simp [lookupPath, hxp, this]
      · simp [lookupPath, hxp, ih]

theorem lookup_scan_fold (fs : Stat) (files : List (List Char)) (m : SnapSet)
    (p : List Char) :
    lookupPath (files.foldl (fun acc q => dictInsert acc q (FileInfo.make fs q)) m) p =
      if p ∈ files then some (FileInfo.make fs p) else lookupPath m p := by
  induction files generalizing m with
  | nil => simp
  | cons f t ih =>
    simp only [List.foldl_cons, ih, lookup_dictInsert]
    by_cases hpt : p ∈ t
    · simp [hpt]
    · by_cases hfp : f = p
      · subst hfp
        simp [hpt]
      · have hnin : p ∉ f :: t := by
          simp only [List.mem_cons]
          rintro (h | h)
          · exact hfp h.symm
          · exact hpt h
        simp [hpt, hfp, hnin]

theorem lookup_scan_directory (cfg : WatcherConfig) (fs : Stat)
    (walkLevels : List (List (List Char))) (p : List Char) :
    lookupPath (scan_directory cfg fs walkLevels) p =
      if p ∈ scan_files cfg walkLevels then some (FileInfo.make fs p)
      else none := by
  unfold scan_directory
  rw [lookup_scan_fold]
  rfl

theorem watch_loop_code (cfg : WatcherConfig) (watchPaths : List (List Char))
    (trace : List CycleEnv) (st : HandlerState) (prev : SnapSet) (scans : ℕ)
    (evs : List Event) (c : ℤ) (s : ℕ) (e : List Event)
    (h : watch_loop cfg watchPaths trace st prev scans evs =
      .finished c s e) : c = 0 := by
  induction trace generalizing st prev scans evs with
  | nil =>
    unfold watch_loop at h
    split at h
    · exact (LoopResult.finished.injEq _ _ _ _ _ _).mp h |>.1.symm
    · simp at h
  | cons env rest ih =>
    unfold watch_loop at h
    split at h
    · exact (LoopResult.finished.injEq _ _ _ _ _ _).mp h |>.1.symm
    · exact ih _ _ _ _ h

theorem resolve_fold_nil (env : StartEnv) (dirs : List (List Char))
    (acc : List (List Char))
    (h : ∀ d ∈ dirs, env.dirExists (env.abspath d) = false) :
    dirs.foldl (fun acc d =>
      let a := env.abspath d
      if env.dirExists a then acc ++ [a] else acc) acc = acc := by
  induction dirs generalizing acc with
  | nil => rfl
  | cons d t ih =>
    simp only [List.foldl_cons]
    rw [if_neg (by simp [h d (by simp)])]
    exact ih acc (fun x hx => h x (by simp [hx]))

theorem decodeStrs_map (l : List (List Char)) :
    decodeStrs (l.map .jstr) = some l := by
  induction l with
  | nil => rfl
  | cons s t ih => simp [decodeStrs, ih]

/-! ### Claims -/

unseal Rat.sub Rat.mul in
/-- C1.  The claim says a path absent from P and present in C yields
exactly one Created event and dispatches `on_create`.  The code instead
classifies it as a Modified event and dispatches `on_modify`: the created
branch of `FileWatcher.start` synthesizes the old snapshot with
`FileInfo(path)`, whose constructor re-stats the (existing) file and so
records `exists=True`.  This theorem evaluates the code on the failing
input: previous set empty, current set `{a ↦ (mtime 100, size 10)}`, file
`a` on disk, `on_create='C'` and `on_modify='M'` configured. -/
theorem creation_misclassified_as_modify :
    (classify_cycle cfg1 fs1 [] cur1 1000 (.exited 0) HandlerState.start).1 =
      [⟨['a'], .modify, ⟨['a'], 100, 10, true⟩, ⟨['a'], 100, 10, true⟩⟩] ∧
    (classify_cycle cfg1 fs1 [] cur1 1000 (.exited 0) HandlerState.start).2.1 =
      [⟨['M'], .exited 0⟩] := by decide

/-- C2, counterexample.  The claim says a file whose stat fails during a
scan is excluded from the returned snapshot set.  On a scan of one file
`a` whose every stat fails, the returned set does contain an entry for
`a` (the observed-absent sentinel `exists=false`), so the claim as stated
is false. -/
theorem scan_failed_stat_keeps_entry :
    lookupPath (scan_directory WatcherConfig.defaults fsFail [[['a']]]) ['a'] =
      some ⟨['a'], 0, 0, false⟩ := by decide

/-- C2, amended.  For every walked file whose stat fails, the scan result
contains the observed-absent sentinel entry `(mtime 0, size 0,
exists=false)` for that file — it is not excluded — and every walked file
(the failing one included) gets its `FileInfo` entry, so the scan of the
remaining files completes normally. -/
theorem scan_failed_stat_sentinel (cfg : WatcherConfig) (fs : Stat)
    (walkLevels : List (List (List Char))) (p : List Char)
    (hp : p ∈ scan_files cfg walkLevels) (hfail : fs p = none) :
    lookupPath (scan_directory cfg fs walkLevels) p = some ⟨p, 0, 0, false⟩ ∧
    ∀ q ∈ scan_files cfg walkLevels,
      lookupPath (scan_directory cfg fs walkLevels) q =
        some (FileInfo.make fs q) := by
  constructor
  · rw [lookup_scan_directory, if_pos hp]
    simp [FileInfo.make, FileInfo.update, hfail]
  · intro q hq
    rw [lookup_scan_directory, if_pos hq]

/-- C2, witness: the amended statement at a concrete two-file scan where
the stat of `a` fails and the stat of `b` succeeds. -/
theorem scan_failed_stat_sentinel_witness :
    ['a'] ∈ scan_files WatcherConfig.defaults [[['a'], ['b']]] ∧
    fs9 ['a'] = none ∧
    lookupPath (scan_directory WatcherConfig.defaults fs9 [[['a'], ['b']]])
      ['a'] = some ⟨['a'], 0, 0, false⟩ ∧
    lookupPath (scan_directory WatcherConfig.defaults fs9 [[['a'], ['b']]])
      ['b'] = some ⟨['b'], 100, 10, true⟩ :=
  ⟨by decide, by decide,
    (scan_failed_stat_sentinel WatcherConfig.defaults fs9 [[['a'], ['b']]]
      ['a'] (by decide) (by decide)).1,
    ((scan_failed_stat_sentinel WatcherConfig.defaults fs9 [[['a'], ['b']]]
      ['a'] (by decide) (by decide)).2 ['b'] (by decide)).trans (by decide)⟩

unseal Rat.sub Rat.mul in
/-- C9.  The claim's first parts hold (no Move event type is ever
synthesized and `on_move` is never consulted), but its last part fails:
a move is observed as a Deleted event on the old path plus a *Modified*
(not Created) event on the new path, because the created branch re-stats
the existing new file (same slip as C1).  Evaluation on the failing
input: `a` moved to `b`, all four per-event commands configured
(`on_move='V'`): the cycle yields Deleted(a) and Modified(b), and the
only launch is `on_delete='D'` (the Modified event is debounced); no
Created event and no `'V'` launch occur. -/
theorem move_observed_as_delete_plus_modify :
    (classify_cycle cfg9 fs9 prev9 cur9 1000 (.exited 0) HandlerState.start).1 =
      [⟨['a'], .delete, ⟨['a'], 50, 10, true⟩, ⟨['a'], 0, 0, false⟩⟩,
       ⟨['b'], .modify, ⟨['b'], 100, 10, true⟩, ⟨['b'], 100, 10, true⟩⟩] ∧
    (classify_cycle cfg9 fs9 prev9 cur9 1000 (.exited 0) HandlerState.start).2.1 =
      [⟨['D'], .exited 0⟩] := by decide

/-- C3.  Debounce single-fire: for two qualifying events with nonempty
resolved commands, where the first satisfies the fire condition
(`elapsed ≥ debounce window`, which also covers the fresh
`last_change = 0` state at realistic clock values) and the second is
processed less than the window after the first, exactly one launch
occurs: the first event fires and records its instant as the new
last-trigger time, the second is dropped and leaves the state
untouched. -/
theorem debounce_single_fire (cfg : WatcherConfig) (cmd1 cmd2 : List Char)
    (t1 t2 : ℚ) (out1 out2 : ExecOutcome) (st0 : HandlerState)
    (hc1 : cmd1.isEmpty = false) (hc2 : cmd2.isEmpty = false)
    (h1 : (cfg.debounce_ms : ℚ) ≤ (t1 - st0.last_change) * 1000)
    (h2 : (t2 - t1) * 1000 < (cfg.debounce_ms : ℚ)) :
    (run_command cfg cmd1 t1 out1 st0).1 = [⟨cmd1, out1⟩] ∧
    (run_command cfg cmd1 t1 out1 st0).2.last_change = t1 ∧
    (run_command cfg cmd2 t2 out2 (run_command cfg cmd1 t1 out1 st0).2).1 =
      [] ∧
    (run_command cfg cmd2 t2 out2 (run_command cfg cmd1 t1 out1 st0).2).2 =
      (run_command cfg cmd1 t1 out1 st0).2 := by
  have e1 : run_command cfg cmd1 t1 out1 st0 =
      ([⟨cmd1, out1⟩],
        ⟨t1, if cfg.oneshot then true else st0.stop_flag⟩) := by
    unfold run_command should_run
    simp [hc1, h1]
  have h2' : ¬ (cfg.debounce_ms : ℚ) ≤ (t2 - t1) * 1000 := not_le.mpr h2
  have e2 : ∀ b, run_command cfg cmd2 t2 out2 ⟨t1, b⟩ = ([], ⟨t1, b⟩) := by
    intro b
    unfold run_command should_run
    simp [hc2, h2']
  refine ⟨?_, ?_, ?_, ?_⟩ <;> simp only [e1, e2]

unseal Rat.sub Rat.mul in
/-- C3، witness: debounce 300 ms, first event at t=1000 from the fresh
state, second at t=1000.1; the first launches, the second is dropped. -/
theorem debounce_single_fire_witness :
    (['x'] : List Char).isEmpty = false ∧
    ((WatcherConfig.defaults.debounce_ms : ℚ) ≤
      ((1000 : ℚ) - HandlerState.start.last_change) * 1000) ∧
    ((mkRat 10001 10 - 1000) * 1000 < (WatcherConfig.defaults.debounce_ms : ℚ)) ∧
    (run_command WatcherConfig.defaults ['x'] 1000 .timedOut
      HandlerState.start).1 = [⟨['x'], .timedOut⟩] ∧
    (run_command WatcherConfig.defaults ['y'] (mkRat 10001 10) (.exited 0)
      (run_command WatcherConfig.defaults ['x'] 1000 .timedOut
        HandlerState.start).2).1 = [] :=
  ⟨by decide, by decide, by decide,
    (debounce_single_fire WatcherConfig.defaults ['x'] ['y'] 1000
      (mkRat 10001 10) .timedOut (.exited 0) HandlerState.start
      (by decide) (by decide) (by decide) (by decide)).1,
    (debounce_single_fire WatcherConfig.defaults ['x'] ['y'] 1000
      (mkRat 10001 10) .timedOut (.exited 0) HandlerState.start
      (by decide) (by decide) (by decide) (by decide)).2.2.1⟩

/-- C4.  With the oneshot flag set, any execution attempt of a dispatched
command — whatever its outcome (exit 0, non-zero exit, timeout, or launch
failure; `outcome` is arbitrary here) — sets the persistent stop flag;
and once the stop flag is set the watch loop returns immediately with
exit code 0, performing no further scan cycles (the scan counter and
event list are unchanged) for any pending trace. -/
theorem oneshot_stop_flag (cfg : WatcherConfig) (cmd : List Char) (now : ℚ)
    (outcome : ExecOutcome) (st : HandlerState)
    (watchPaths : List (List Char)) (trace : List CycleEnv) (prev : SnapSet)
    (scans : ℕ) (evs : List Event) (st' : HandlerState)
    (hone : cfg.oneshot = true)
    (hx : (run_command cfg cmd now outcome st).1 ≠ [])
    (hstop : st'.stop_flag = true) :
    (run_command cfg cmd now outcome st).2.stop_flag = true ∧
    watch_loop cfg watchPaths trace st' prev scans evs =
      .finished 0 scans evs := by
  constructor
  · by_cases hce : cmd.isEmpty
    · simp [run_command, hce] at hx
    · by_cases hr : (should_run cfg now st).1
      · simp [run_command, hce, hr, hone]
      · simp [run_command, hce, hr] at hx
  · unfold watch_loop
    simp [hstop]

unseal Rat.sub Rat.mul in
/-- C4, witness: a oneshot configuration whose generic command times out
still sets the stop flag, and a loop entered with the stop flag set
returns `finished 0` at once even though a poll cycle is pending. -/
theorem oneshot_stop_flag_witness :
    cfgOS.oneshot = true ∧
    (run_command cfgOS ['c'] 1000 .timedOut HandlerState.start).1 ≠ [] ∧
    stGo.stop_flag = true ∧
    (run_command cfgOS ['c'] 1000 .timedOut HandlerState.start).2.stop_flag =
      true ∧
    watch_loop cfgOS [['x']] [envT] stGo [] 3 [] = .finished 0 3 [] :=
  ⟨by decide, by decide, by decide,
    (oneshot_stop_flag cfgOS ['c'] 1000 .timedOut HandlerState.start [['x']]
      [envT] [] 3 [] stGo (by decide) (by decide) (by decide)).1,
    (oneshot_stop_flag cfgOS ['c'] 1000 .timedOut HandlerState.start [['x']]
      [envT] [] 3 [] stGo (by decide) (by decide) (by decide)).2⟩

/-- C5.  Startup exit codes: (1) if watch roots are configured and every
one fails to resolve to an existing directory, `start` returns exit code
1 having performed zero directory scans (and produced no events); (2)
otherwise — some root resolved — the baseline scan produces no events
(over the empty observation window `start` ends with one scan per root
and an empty event list), and whenever `start` terminates normally it
returns exit code 0. -/
theorem startup_exit_codes (cfg : WatcherConfig) (env : StartEnv) :
    (cfg.watch_dirs ≠ [] →
      (∀ d ∈ cfg.watch_dirs, env.dirExists (env.abspath d) = false) →
      ∀ trace, start cfg env trace = .finished 1 0 []) ∧
    (resolve_watch_paths cfg env ≠ [] →
      start cfg env [] = .outOfTrace (resolve_watch_paths cfg env).length [] ∧
      ∀ trace c s e, start cfg env trace = .finished c s e → c = 0) := by
  constructor
  · intro h1 h2 trace
    have hres : resolve_watch_paths cfg env = [] := by
      unfold resolve_watch_paths
      have hne : cfg.watch_dirs.isEmpty = false := by
        cases hwd : cfg.watch_dirs
        · exact absurd hwd h1
        · rfl
      rw [hne]
      simp only [Bool.false_eq_true, if_false]
      exact resolve_fold_nil env cfg.watch_dirs [] h2
    unfold start
    rw [hres]
    rfl
  · intro hres
    have hne : (resolve_watch_paths cfg env).isEmpty = false := by
      cases hr : resolve_watch_paths cfg env
      · exact absurd hr hres
      · rfl
    constructor
    · simp only [start, hne, Bool.false_eq_true, if_false]
      rfl
    · intro trace c s e h
      simp only [start, hne, Bool.false_eq_true, if_false] at h
      exact watch_loop_code _ _ _ _ _ _ _ _ _ _ h

/-- C5, witness: with one configured nonexistent root the watcher returns
exit code 1 and scans nothing; with the same root existing, the baseline
pass performs one scan and produces no events. -/
theorem startup_exit_codes_witness :
    start cfgW envW [] = .finished 1 0 [] ∧
    start cfgW envV [] = .outOfTrace 1 [] :=
  ⟨(startup_exit_codes cfgW envW).1 (by decide) (by decide) [],
    ((startup_exit_codes cfgW envV).2 (by decide)).1⟩

/-- C6.  Exclude precedence: whenever some exclude pattern is a substring
of a path, `should_process` rejects the path — including when an include
pattern also matches — and `handle_change` on that path is a no-op: no
event is recorded, no command is launched, the state is unchanged. -/
theorem exclude_precedence (cfg : WatcherConfig) (path pat : List Char)
    (old_info new_info : FileInfo) (now : ℚ) (outcome : ExecOutcome)
    (st : HandlerState) (hmem : pat ∈ cfg.exclude_patterns)
    (hsub : substrOf pat path = true) :
    should_process cfg path = false ∧
    handle_change cfg path old_info new_info now outcome st = ([], [], st) := by
  have hex : cfg.exclude_patterns.isEmpty = false := by
    cases hwd : cfg.exclude_patterns
    · rw [hwd] at hmem
      simp at hmem
    · rfl
  have hany : cfg.exclude_patterns.any (fun q => substrOf q path) = true :=
    List.any_eq_true.mpr ⟨pat, hmem, hsub⟩
  have hsp : should_process cfg path = false := by
    unfold should_process
    dsimp only
    split
    · simp [hex, hany]
    · simp [hex, hany]
  exact ⟨hsp, by simp [handle_change, hsp]⟩

/-- C6, witness: path `b.py` matches the include pattern `.py` (extension
match) yet contains the exclude substring `b`, so it is rejected and its
change is never dispatched. -/
theorem exclude_precedence_witness :
    ['b'] ∈ cfgX.exclude_patterns ∧
    substrOf ['b'] ['b', '.', 'p', 'y'] = true ∧
    should_process cfgX ['b', '.', 'p', 'y'] = false ∧
    handle_change cfgX ['b', '.', 'p', 'y'] ⟨['b', '.', 'p', 'y'], 0, 0, false⟩
      ⟨['b', '.', 'p', 'y'], 1, 1, true⟩ 0 (.exited 0) HandlerState.start =
      ([], [], HandlerState.start) :=
  ⟨by decide, by decide,
    (exclude_precedence cfgX ['b', '.', 'p', 'y'] ['b']
      ⟨['b', '.', 'p', 'y'], 0, 0, false⟩ ⟨['b', '.', 'p', 'y'], 1, 1, true⟩
      0 (.exited 0) HandlerState.start (by decide) (by decide)).1,
    (exclude_precedence cfgX ['b', '.', 'p', 'y'] ['b']
      ⟨['b', '.', 'p', 'y'], 0, 0, false⟩ ⟨['b', '.', 'p', 'y'], 1, 1, true⟩
      0 (.exited 0) HandlerState.start (by decide) (by decide)).2⟩

/-- C7.  For a path present in both snapshot sets with both snapshots
existing (and considered by the watcher: the pattern filter passes), the
classification cycle produces an event for it iff the recorded
modification time or size differs, and that event is Modified with the
two snapshots attached; identical mtime and size yield no event (content
is never consulted). -/
theorem modified_iff_metadata_differs (cfg : WatcherConfig) (fs : Stat)
    (prev cur : SnapSet) (now : ℚ) (outcome : ExecOutcome)
    (st : HandlerState) (p : List Char) (o n : FileInfo)
    (hnd : (all_paths prev cur).Nodup)
    (ho : lookupPath prev p = some o) (hn : lookupPath cur p = some n)
    (hoe : o.exists_ = true) (hne : n.exists_ = true)
    (hsp : should_process cfg p = true) :
    events_for (classify_cycle cfg fs prev cur now outcome st).1 p =
      if o.mtime ≠ n.mtime ∨ o.size ≠ n.size then [⟨p, .modify, o, n⟩]
      else [] := by
  have hp : p ∈ all_paths prev cur :=
    List.mem_append.mpr (Or.inl (lookupPath_mem prev p o ho))
  rw [events_for_cycle cfg fs prev cur now outcome st p hnd hp]
  unfold step_events
  rw [ho, hn]
  by_cases hm : o.mtime = n.mtime <;> by_cases hsz : o.size = n.size <;>
    simp [FileInfo.changed, hc_events, event_type_of, hoe, hne, hsp, hm, hsz]

/-- C7, witness: Scenario B — baseline `(mtime 100, size 10)`, current
scan `(mtime 150, size 10)` — yields exactly the Modified event for `a`
under the default (pattern-free) configuration. -/
theorem modified_iff_metadata_differs_witness :
    (all_paths prevB curB).Nodup ∧
    lookupPath prevB ['a'] = some ⟨['a'], 100, 10, true⟩ ∧
    lookupPath curB ['a'] = some ⟨['a'], 150, 10, true⟩ ∧
    should_process WatcherConfig.defaults ['a'] = true ∧
    events_for (classify_cycle WatcherConfig.defaults fsFail prevB curB 1000
        (.exited 0) HandlerState.start).1 ['a'] =
      [⟨['a'], .modify, ⟨['a'], 100, 10, true⟩, ⟨['a'], 150, 10, true⟩⟩] :=
  ⟨by decide, by decide, by decide, by decide,
    (modified_iff_metadata_differs WatcherConfig.defaults fsFail prevB curB
      1000 (.exited 0) HandlerState.start ['a'] ⟨['a'], 100, 10, true⟩
      ⟨['a'], 150, 10, true⟩ (by decide) (by decide) (by decide) rfl rfl
      (by decide)).trans (by decide)⟩

/-- C8, counterexample.  The claim says every path present in P and
absent from C yields exactly one Deleted event.  When the P-entry is the
observed-absent sentinel (`exists=false`, producible by the scanner per
C2), the code classifies the disappearance as *Modified*: on
`P = {a ↦ sentinel}`, `C = {}` the cycle's only event is a Modified
event, so the claim as stated is false. -/
theorem deleted_sentinel_counterexample :
    (classify_cycle WatcherConfig.defaults fsFail prev8 [] 1000 (.exited 0)
        HandlerState.start).1 =
      [⟨['a'], .modify, ⟨['a'], 0, 0, false⟩, ⟨['a'], 0, 0, false⟩⟩] := by
  decide

/-- C8, amended.  For every path present in P *with `exists=true`* and
absent from C (and passing the pattern filter), the classification cycle
produces exactly one Deleted event for it, whose synthesized new snapshot
has `exists=false`; a P-entry recorded `exists=false` instead yields a
Modified event (see the counterexample). -/
theorem deleted_event_amended (cfg : WatcherConfig) (fs : Stat)
    (prev cur : SnapSet) (now : ℚ) (outcome : ExecOutcome)
    (st : HandlerState) (p : List Char) (o : FileInfo)
    (hnd : (all_paths prev cur).Nodup)
    (ho : lookupPath prev p = some o) (hn : lookupPath cur p = none)
    (hoe : o.exists_ = true) (hsp : should_process cfg p = true) :
    events_for (classify_cycle cfg fs prev cur now outcome st).1 p =
      [⟨p, .delete, o, { FileInfo.make fs p with exists_ := false }⟩] ∧
    ({ FileInfo.make fs p with exists_ := false }).exists_ = false := by
  have hp : p ∈ all_paths prev cur :=
    List.mem_append.mpr (Or.inl (lookupPath_mem prev p o ho))
  constructor
  · rw [events_for_cycle cfg fs prev cur now outcome st p hnd hp]
    unfold step_events
    rw [ho, hn]
    simp [hc_events, event_type_of, hoe, hsp]
  · rfl

/-- C8, witness: `a` recorded as existing in P and absent from C yields
exactly the Deleted event with an `exists=false` new snapshot. -/
theorem deleted_event_amended_witness :
    (all_paths prevDel ([] : SnapSet)).Nodup ∧
    lookupPath prevDel ['a'] = some ⟨['a'], 100, 10, true⟩ ∧
    lookupPath ([] : SnapSet) ['a'] = none ∧
    events_for (classify_cycle WatcherConfig.defaults fsFail prevDel [] 1000
        (.exited 0) HandlerState.start).1 ['a'] =
      [⟨['a'], .delete, ⟨['a'], 100, 10, true⟩, ⟨['a'], 0, 0, false⟩⟩] :=
  ⟨by decide, by decide, by decide,
    ((deleted_event_amended WatcherConfig.defaults fsFail prevDel [] 1000
      (.exited 0) HandlerState.start ['a'] ⟨['a'], 100, 10, true⟩ (by decide)
      (by decide) (by decide) rfl (by decide)).1).trans (by decide)⟩

/-- C10.  Configuration persistence round-trips: loading the JSON object
that `save_config` writes for any configuration record restores all
fifteen fields exactly. -/
theorem config_roundtrip (c : WatcherConfig) :
    load_config (WatcherConfig.to_dict c) = some c := by
  obtain ⟨wd, wp, ep, cmd, oc, om, od, omv, dm, pi, rc, os, ir, se, lf⟩ := c
  cases lf <;>
    simp [load_config, WatcherConfig.to_dict, jget, asStrList, decodeStrs_map,
      asStr, asInt, asNum, asBool, asOptStr]
